import Mathlib

/-!
Verification of the postscreen log-statistics program (`postscreen_stats.py`).

The development shallowly embeds the parts of the source that the claims
talk about:

* Python string helpers (`str.split`, `re.search` on literal patterns,
  `int(...)` applied to strings) modelled as executable functions on
  `List Char` and `String`;
* `defaultdict(int)`-style counter maps as association lists with a
  default value of `0` on missing keys;
* the per-client record `ClientStat` and its `action_filter` method
  (source lines 83-112);
* `gen_unix_ts` (source lines 56-80), including the `int(now_ts)` call on
  a `datetime` object, which in Python raises `TypeError`; fallible code
  is embedded via `Except String`;
* the main-loop aggregation over log events (source lines 196-306);
* the report summarizer and its division steps (source lines 336-411).
-/

/-! ## Python string primitives -/

/-- `startsL pat s` is true when `pat` is a prefix of `s`; this models a
Python `re.search` call whose pattern is anchored with a leading caret,
such as `search("^OLD", ...)`. -/
def startsL : List Char → List Char → Bool
  | [], _ => true
  | _ :: _, [] => false
  | p :: ps, c :: cs => p == c && startsL ps cs

/-- Substring containment on character lists: `containsL s pat` is true
when `pat` occurs contiguously inside `s`. -/
def containsL : List Char → List Char → Bool
  | [], pat => startsL pat []
  | c :: rest, pat => startsL pat (c :: rest) || containsL rest pat

/-- Model of `re.search(pat, s)` for an unanchored literal pattern:
substring containment. -/
def pySearch (pat s : String) : Bool := containsL s.toList pat.toList

/-- Model of `re.search("^pat", s)`: prefix test. -/
def pyStarts (pat s : String) : Bool := startsL pat.toList s.toList

/-- Model of Python `s.split(sep)` for a one-character separator: splits
at every occurrence, keeping empty segments, so `"a||b"` gives
`["a", "", "b"]` and `""` gives `[""]`. -/
def splitChar (sep : Char) : List Char → List (List Char)
  | [] => [[]]
  | c :: cs =>
    if c == sep then [] :: splitChar sep cs
    else
      match splitChar sep cs with
      | [] => [[c]]
      | g :: gs => (c :: g) :: gs

/-- String-level wrapper for `splitChar`. -/
def pySplitStr (sep : Char) (s : String) : List String :=
  (splitChar sep s.toList).map (fun l => String.mk l)

/-- Whitespace characters recognized by Python `str.split(None)`. -/
def isSpaceChar (c : Char) : Bool :=
  c == ' ' || c == '\t' || c == '\n' || c == '\r' || c == '\x0b' || c == '\x0c'

/-- Helper for `pySplitWs`: `cur` holds the characters of the word being
read, in reverse order. -/
def wsSplitAux (cur : List Char) : List Char → List (List Char)
  | [] => if cur.isEmpty then [] else [cur.reverse]
  | c :: cs =>
    if isSpaceChar c then
      if cur.isEmpty then wsSplitAux [] cs else cur.reverse :: wsSplitAux [] cs
    else wsSplitAux (c :: cur) cs

/-- Model of Python `s.split(None)`: split on runs of whitespace and drop
empty segments. -/
def pySplitWs (s : String) : List String :=
  (wsSplitAux [] s.toList).map (fun l => String.mk l)

/-- Digits-only parse of a character list into a natural number;
`none` when the list is empty or holds a non-digit. -/
def parseNatChars : List Char → Option Nat
  | [] => none
  | [c] => if c.isDigit then some (c.toNat - 48) else none
  | c :: cs =>
    if c.isDigit then
      match parseNatChars cs with
      | some n => some ((c.toNat - 48) + 10 * n)
      | none => none
    else none

/-- Digits parsed most-significant first. -/
def parseNatMSD (l : List Char) : Option Nat := parseNatChars l.reverse

/-- Model of Python `int(s)` on a string: optional sign followed by
digits; anything else raises `ValueError`. -/
def pyIntOfString (s : String) : Except String Int :=
  match s.toList with
  | '-' :: rest =>
    match parseNatMSD rest with
    | some n => .ok (-(n : Int))
    | none => .error "ValueError"
  | l =>
    match parseNatMSD l with
    | some n => .ok (n : Int)
    | none => .error "ValueError"

/-! ## Counter maps (`defaultdict(int)`)

Python `defaultdict(int)` returns `0` for a missing key (inserting a
zero entry as a side effect; the inserted zeros are observationally
irrelevant here because every read defaults to `0`, so the embedding
models reads as pure lookups). Insertion order of fresh keys is
preserved, as in a Python dict. -/

abbrev CMap := List (String × Int)

/-- Lookup with default `0`, as in `defaultdict(int).__getitem__`. -/
def lookup0 : CMap → String → Int
  | [], _ => 0
  | (k', v) :: rest, k => if k' = k then v else lookup0 rest k

/-- Assignment `m[k] = v`: replaces in place, or appends a fresh key at
the end (Python dicts keep insertion order). -/
def setKey : CMap → String → Int → CMap
  | [], k, v => [(k, v)]
  | (k', v') :: rest, k, v =>
    if k' = k then (k, v) :: rest else (k', v') :: setKey rest k v

/-- Model of `m[k] += 1`. -/
def incKey (m : CMap) (k : String) : CMap := setKey m k (lookup0 m k + 1)

/-! ## ClientStat (source lines 83-112) -/

/-- Per-client statistics record, mirroring class `ClientStat`: the
`logs` and `actions` counter dictionaries and the ordered list of DNSBL
ranks (stored as the raw strings taken from the log line). The
geolocation field is omitted: every claim is settled with geolocation
disabled (empty `GEOFILE`), under which the source never touches it. -/
structure ClientStat where
  logs : CMap
  actions : CMap
  dnsbl_ranks : List String
deriving DecidableEq, Repr

/-- Read a `logs` counter. -/
def logLookup (cs : ClientStat) (k : String) : Int := lookup0 cs.logs k

/-- Read an `actions` counter. -/
def actLookup (cs : ClientStat) (k : String) : Int := lookup0 cs.actions k

/-- Model of `self.logs[k] = v`. -/
def setLog (cs : ClientStat) (k : String) (v : Int) : ClientStat :=
  { cs with logs := setKey cs.logs k v }

/-- Model of `self.logs[k] += 1`. -/
def incLog (cs : ClientStat) (k : String) : ClientStat :=
  { cs with logs := incKey cs.logs k }

/-- Model of `self.actions[k] += 1`. -/
def incAction (cs : ClientStat) (k : String) : ClientStat :=
  { cs with actions := incKey cs.actions k }

/-- Inner loop of `ClientStat.action_filter` (source lines 103-107): the
`_and_action_filter` flag is threaded through the `&`-separated
literals; a literal with a nonpositive count, or any literal met after
the flag went negative, forces the flag to `-1`. -/
def and_loop (actions : CMap) (acc : Int) : List String → Int
  | [] => acc
  | a :: rest =>
    and_loop actions (if 0 < lookup0 actions a ∧ 0 ≤ acc then 1 else -1) rest

/-- Outer loop of `ClientStat.action_filter` (source lines 100-109): the
`_pass_action_filter` flag becomes `1` as soon as one `|`-separated
disjunct evaluates positively. -/
def or_loop (actions : CMap) (pass : Int) : List String → Int
  | [] => pass
  | d :: rest =>
    or_loop actions
      (if pass = 0 then
        (if 0 < and_loop actions 0 (pySplitStr '&' d) then 1 else pass)
      else pass) rest

/-- `ClientStat.action_filter` (source lines 91-112): `None` always
passes; otherwise the filter string is split on `|` into disjuncts, each
disjunct on `&` into literals, and each literal is the exact key whose
count must be positive. -/
def ClientStat.action_filter (self : ClientStat) (ac_filter : Option String) : Bool :=
  let p : Int :=
    match ac_filter with
    | none => 1
    | some f => or_loop self.actions 0 (pySplitStr '|' f)
  if p = 1 then true else false

/-! ## gen_unix_ts (source lines 56-80)

The source does `now_ts = dt.now(); unix_ts = int(now_ts)` before any
parsing. In Python, `int` applied to a `datetime.datetime` object raises
`TypeError`, so the function never reaches the parsing code. The
remaining body (the `strptime`/`mktime` calls and the future-date guard)
is embedded behind an abstract `TimeEnv` so that the theorem about this
function quantifies over every possible behavior of the time library. -/

/-- Abstract interface to the time library: `mktime(strptime(s, fmt))`
for the two formats (failure stands for `ValueError`), and
`mktime(now.timetuple())`. -/
structure TimeEnv where
  mktimeStrptimeRfc : String → Except String Int
  mktimeStrptimeSyslog : String → Except String Int
  nowUnix : Int

/-- Python `int(datetime.now())`: raises `TypeError` unconditionally. -/
def intOfDatetime : Except String Int :=
  .error "TypeError: int() argument cannot be a datetime"

/-- `gen_unix_ts` (source lines 56-80). The first statement that can
fail is `unix_ts = int(now_ts)` on line 61; the subsequent parsing and
the future-timestamp `exit()` (modelled as an error) are dead code. -/
def gen_unix_ts (env : TimeEnv) (rfc3339 : Bool) (year : Nat) (syslog_ts : String) :
    Except String Int := do
  let _unix_ts0 ← intOfDatetime
  let unix_ts ←
    if rfc3339 then
      env.mktimeStrptimeRfc ((pySplitStr '+' syslog_ts).headD "")
    else
      env.mktimeStrptimeSyslog (toString year ++ " " ++ syslog_ts)
  if env.nowUnix < unix_ts then
    .error "ERROR: Calculated date from syslog time stamp is in the future!?"
  else
    .ok unix_ts

/-! ## The aggregation main loop (source lines 196-306)

One postscreen log line, after the split on whitespace, exposes the
action token `line_fields[LOG_CURSOR]`, the free-form remainder
`line_fields[LOG_CURSOR + 1]` and the extracted client IP. The CONNECT
branch also derives a unix timestamp from the line's date fields via
`gen_unix_ts`; since the aggregation-logic claims concern the flow of
already-obtained timestamps, `LogEvent` carries the timestamp as a
value, and the literal translation of the CONNECT branch including the
always-failing `gen_unix_ts` call is kept separately in
`processConnect`. -/

/-- One classified postscreen log line: client IP, the action token
`line_fields[LOG_CURSOR]`, the remainder `line_fields[LOG_CURSOR + 1]`,
and the unix timestamp of the line's date fields. -/
structure LogEvent where
  ip : String
  tok : String
  rest : String
  ts : Int
deriving DecidableEq, Repr

/-- The `IP_LIST` dictionary: client IP to `ClientStat`. -/
abbrev IPMap := List (String × ClientStat)

/-- Dictionary lookup `IP_LIST[ip]` (with `ip in IP_LIST` as `isSome`). -/
def findClient : IPMap → String → Option ClientStat
  | [], _ => none
  | (k, cs) :: rest, ip => if k = ip then some cs else findClient rest ip

/-- Dictionary store `IP_LIST[ip] = cs`, keeping insertion order. -/
def setClient : IPMap → String → ClientStat → IPMap
  | [], ip, cs => [(ip, cs)]
  | (k, v) :: rest, ip, cs =>
    if k = ip then (k, cs) :: rest else (k, v) :: setClient rest ip cs

/-- Event dispatch for a client already present in `IP_LIST` (source
lines 241-306). Each branch mirrors the source's `elif` chain; note that
on line 260 the source searches for "all server ports busy" inside
`line_fields[LOG_CURSOR]` (the token, always `"NOQUEUE:"` in this
branch), not in the remainder; the translation keeps that verbatim.
`DNSBL` indexes `rank_line[1]`, an `IndexError` when the remainder has
fewer than two whitespace-separated fields. -/
def applyKnown (cs : ClientStat) (tok rest : String) : Except String ClientStat :=
  if tok = "PASS" then
    if pyStarts "OLD" rest then
      if logLookup (incAction cs "PASS OLD") "CONNECT" = 2 ∧
          0 < actLookup (incAction cs "PASS OLD")
            "NOQUEUE 450 deep protocol test reconnection" then
        .ok (setLog (incAction cs "PASS OLD") "RECO. DELAY (graylist)"
          (logLookup (incAction cs "PASS OLD") "LAST SEEN" -
            logLookup (incAction cs "PASS OLD") "FIRST SEEN"))
      else .ok (incAction cs "PASS OLD")
    else if pyStarts "NEW" rest then .ok (incAction cs "PASS NEW")
    else .ok cs
  else if tok = "NOQUEUE:" then
    if pySearch "too many connections" rest then
      .ok (incAction cs "NOQUEUE too many connections")
    else if pySearch "all server ports busy" tok then
      .ok (incAction cs "NOQUEUE all server ports busy")
    else if pySearch "450 4.3.2 Service currently unavailable" rest then
      .ok (incAction cs "NOQUEUE 450 deep protocol test reconnection")
    else .ok cs
  else if tok = "HANGUP" then .ok (incAction cs "HANGUP")
  else if tok = "DNSBL" then
    match pySplitWs rest with
    | _ :: rank :: _ =>
      .ok { incAction cs "DNSBL" with dnsbl_ranks := cs.dnsbl_ranks ++ [rank] }
    | _ => .error "IndexError: rank_line[1]"
  else if tok = "PREGREET" then .ok (incAction cs "PREGREET")
  else if tok = "COMMAND" then
    if pyStarts "PIPELINING" rest then .ok (incAction cs "COMMAND PIPELINING")
    else if pyStarts "TIME LIMIT" rest then .ok (incAction cs "COMMAND TIME LIMIT")
    else if pyStarts "COUNT LIMIT" rest then .ok (incAction cs "COMMAND COUNT LIMIT")
    else if pyStarts "LENGTH LIMIT" rest then .ok (incAction cs "COMMAND LENGTH LIMIT")
    else .ok cs
  else if tok = "WHITELISTED" then .ok (incAction cs "WHITELISTED")
  else if tok = "BLACKLISTED" then .ok (incAction cs "BLACKLISTED")
  else if tok = "BARE" then
    if pyStarts "NEWLINE" rest then .ok (incAction cs "BARE NEWLINE") else .ok cs
  else if tok = "NON-SMTP" then
    if pyStarts "COMMAND" rest then .ok (incAction cs "NON-SMTP COMMAND") else .ok cs
  else if tok = "WHITELIST" then
    if pyStarts "VETO" rest then .ok (incAction cs "WHITELIST VETO") else .ok cs
  else .ok cs

/-- The CONNECT branch's state update (source lines 220-235): a fresh
client gets `FIRST SEEN = LAST SEEN = ts`; a known client only has
`LAST SEEN` updated; `CONNECT` is incremented either way. -/
def connUpd : Option ClientStat → Int → ClientStat
  | none, ts =>
    incLog (setLog (setLog (ClientStat.mk [] [] []) "FIRST SEEN" ts) "LAST SEEN" ts)
      "CONNECT"
  | some cs, ts => incLog (setLog cs "LAST SEEN" ts) "CONNECT"

/-- One iteration of the aggregation loop over an already-classified
event (source lines 211-306): `CONNECT` creates or refreshes the
client's record; every other token is processed only when the IP is
already in `IP_LIST` (line 240), otherwise the whole mapping is left
untouched. -/
def step (m : IPMap) (e : LogEvent) : Except String IPMap :=
  if e.tok = "CONNECT" then
    .ok (setClient m e.ip (connUpd (findClient m e.ip) e.ts))
  else
    match findClient m e.ip with
    | none => .ok m
    | some cs =>
      match applyKnown cs e.tok e.rest with
      | .error err => .error err
      | .ok cs' => .ok (setClient m e.ip cs')

/-- The aggregation loop folded over a list of events. -/
def runMap (m : IPMap) : List LogEvent → Except String IPMap
  | [] => .ok m
  | e :: es =>
    match step m e with
    | .error err => .error err
    | .ok m' => runMap m' es

/-- Literal translation of the CONNECT branch including its calls to
`gen_unix_ts` on the line's date fields (source lines 211-235): the
fresh-client arm computes `FIRST SEEN` and `LAST SEEN` with two calls,
the known-client arm recomputes `LAST SEEN` with one. -/
def processConnect (env : TimeEnv) (rfc3339 : Bool) (year : Nat) (m : IPMap)
    (ip syslog_date : String) : Except String IPMap :=
  match findClient m ip with
  | none =>
    match gen_unix_ts env rfc3339 year syslog_date with
    | .error err => .error err
    | .ok fs =>
      match gen_unix_ts env rfc3339 year syslog_date with
      | .error err => .error err
      | .ok ls =>
        .ok (setClient m ip
          (incLog (setLog (setLog (ClientStat.mk [] [] []) "FIRST SEEN" fs)
            "LAST SEEN" ls) "CONNECT"))
  | some cs =>
    match gen_unix_ts env rfc3339 year syslog_date with
    | .error err => .error err
    | .ok ls => .ok (setClient m ip (incLog (setLog cs "LAST SEEN" ls) "CONNECT"))

/-- Timestamps of the CONNECT events of a list, in order. -/
def connectTs : List LogEvent → List Int
  | [] => []
  | e :: es => if e.tok = "CONNECT" then e.ts :: connectTs es else connectTs es

/-! ## The report summarizer (source lines 336-411)

Modelled with geolocation and map output disabled (`GEOFILE` and
`MAPDEST` empty), under which the source skips the geo branches. The
`sorted(...)` iteration over a client's actions only fixes the order in
which distinct keys receive their one addition each, so the accumulation
is performed in storage order; the resulting counter values are
identical. -/

/-- The `elif` chain classifying a reconnection delay into a `COMEBACK`
bucket (source lines 359-378). Reached only for delays `> 0`. Note that
both the `< 10` and the `10 < ... <= 30` guards exclude a delay of
exactly `10`, which therefore falls through every guard to the final
`else` bucket `'>24h'`. -/
def comebackKey (d : Int) : String :=
  if d < 10 then "<10s"
  else if 10 < d ∧ d ≤ 30 then "10s to 30s"
  else if 30 < d ∧ d ≤ 60 then ">30s to 1min"
  else if 60 < d ∧ d ≤ 300 then ">1min to 5min"
  else if 300 < d ∧ d ≤ 1800 then ">5 min to 30min"
  else if 1800 < d ∧ d ≤ 7200 then ">30min to 2h"
  else if 7200 < d ∧ d ≤ 18000 then ">2h to 5h"
  else if 18000 < d ∧ d ≤ 43200 then ">5h to 12h"
  else if 43200 < d ∧ d ≤ 86400 then ">12h to 24h"
  else ">24h"

/-- The `COMEBACK` dictionary with its ten buckets initialized to zero
(source lines 338-340). -/
def comebackInit : CMap :=
  [("<10s", 0), ("10s to 30s", 0), (">30s to 1min", 0), (">1min to 5min", 0),
   (">5 min to 30min", 0), (">30min to 2h", 0), (">2h to 5h", 0),
   (">5h to 12h", 0), (">12h to 24h", 0), (">24h", 0)]

/-- The summarizer's accumulators: the `CLIENTS` counters, the
`COMEBACK` histogram and the `POSTSCREEN_STATS` totals. -/
structure Summary where
  clients : CMap
  comeback : CMap
  postscreen_stats : CMap
deriving DecidableEq, Repr

/-- Initial summarizer state (source lines 336-340). -/
def initSummary : Summary := Summary.mk [] comebackInit []

/-- `for action in ...: POSTSCREEN_STATS[action] += actions[action]`
(source lines 380-381), one addition per stored key. -/
def addActions (ps : CMap) : List (String × Int) → CMap
  | [] => ps
  | (k, v) :: rest => addActions (setKey ps k (lookup0 ps k + v)) rest

/-- `for rank in dnsbl_ranks: CLIENTS["avg. dnsbl rank"] += int(rank)`
(source lines 385-386); `int` on a non-numeric rank string raises
`ValueError`. -/
def addRanks (c : CMap) : List String → Except String CMap
  | [] => .ok c
  | r :: rest =>
    match pyIntOfString r with
    | .error err => .error err
    | .ok n => addRanks (setKey c "avg. dnsbl rank" (lookup0 c "avg. dnsbl rank" + n)) rest

/-- Python division with a zero divisor raising `ZeroDivisionError`;
quotient values follow Python 2 floor division (the script's idiom),
which no claim depends on. -/
def pyDiv (a b : Int) : Except String Int :=
  if b = 0 then .error "ZeroDivisionError" else .ok (Int.fdiv a b)

/-- Per-client accumulation of the normal report mode (source lines
348-386, geo branches disabled): skip clients rejected by the action
filter; count the client; when its graylist reconnection delay is
positive add it to the running sum and to its `COMEBACK` bucket; add all
its action counts to `POSTSCREEN_STATS`; and when its `DNSBL` count is
positive add its integer ranks to `CLIENTS["avg. dnsbl rank"]`. -/
def accumulateClient (ac_filter : Option String) (acc : Summary) (cs : ClientStat) :
    Except String Summary :=
  if cs.action_filter ac_filter = false then .ok acc
  else
    let cl := incKey acc.clients "clients"
    let d := logLookup cs "RECO. DELAY (graylist)"
    let cl := if 0 < d then
        setKey (incKey cl "reconnections") "seconds avg. reco. delay"
          (lookup0 (incKey cl "reconnections") "seconds avg. reco. delay" + d)
      else cl
    let cb := if 0 < d then incKey acc.comeback (comebackKey d) else acc.comeback
    let ps := addActions acc.postscreen_stats cs.actions
    if 0 < actLookup cs "DNSBL" then
      match addRanks cl cs.dnsbl_ranks with
      | .error err => .error err
      | .ok cl2 => .ok (Summary.mk cl2 cb ps)
    else .ok (Summary.mk cl cb ps)

/-- The summarizer's fold over `IP_LIST` (source lines 348-386). -/
def summarizeClients (ac_filter : Option String) (acc : Summary) :
    IPMap → Except String Summary
  | [] => .ok acc
  | (_, cs) :: rest =>
    match accumulateClient ac_filter acc cs with
    | .error err => .error err
    | .ok acc' => summarizeClients ac_filter acc' rest

/-- The full summarizer (source lines 345-411): the per-client fold,
then the average-reconnection-delay division (line 407), then the
average-DNSBL-rank division (line 411). Line 411 divides
`CLIENTS["avg. dnsbl rank"]` by `POSTSCREEN_STATS["dnsbl"]` with a
lowercase key that is never written, so that divisor is always `0`. -/
def summarize (m : IPMap) (ac_filter : Option String) : Except String Summary :=
  match summarizeClients ac_filter initSummary m with
  | .error err => .error err
  | .ok s =>
    let step1 : Except String Summary :=
      if 0 < lookup0 s.clients "reconnections" then
        match pyDiv (lookup0 s.clients "seconds avg. reco. delay")
            (lookup0 s.clients "reconnections") with
        | .error err => .error err
        | .ok q => .ok { s with clients := setKey s.clients "seconds avg. reco. delay" q }
      else .ok s
    match step1 with
    | .error err => .error err
    | .ok s =>
      if 0 < lookup0 s.postscreen_stats "DNSBL" ∧ 0 < lookup0 s.clients "avg. dnsbl rank" then
        match pyDiv (lookup0 s.clients "avg. dnsbl rank")
            (lookup0 s.postscreen_stats "dnsbl") with
        | .error err => .error err
        | .ok q => .ok { s with clients := setKey s.clients "avg. dnsbl rank" q }
      else .ok s

/-! ## Counter-map lemmas -/

theorem lookup0_setKey_self (m : CMap) (k : String) (v : Int) :
    lookup0 (setKey m k v) k = v := by
  induction m with
  | nil => simp [setKey, lookup0]
  | cons p rest ih =>
    obtain ⟨k', v'⟩ := p
    by_cases h : k' = k
    · simp [setKey, h, lookup0]
    · simp [setKey, h, lookup0, ih]

theorem lookup0_setKey_ne (m : CMap) (k k' : String) (v : Int) (h : k' ≠ k) :
    lookup0 (setKey m k v) k' = lookup0 m k' := by
  have hkk : k ≠ k' := fun hh => h hh.symm
  induction m with
  | nil => simp [setKey, lookup0, hkk]
  | cons p rest ih =>
    obtain ⟨a, b⟩ := p
    by_cases ha : a = k
    · have hak : a ≠ k' := by rw [ha]; exact hkk
      simp [setKey, ha, lookup0, hkk, hak]
    · simp [setKey, ha, lookup0, ih]

theorem lookup0_incKey_ne (m : CMap) (k k' : String) (h : k' ≠ k) :
    lookup0 (incKey m k) k' = lookup0 m k' :=
  lookup0_setKey_ne m k k' _ h

theorem lookup0_incKey_self (m : CMap) (k : String) :
    lookup0 (incKey m k) k = lookup0 m k + 1 :=
  lookup0_setKey_self m k _

/-! ## Splitter lemmas -/

theorem splitChar_ne_nil (sep : Char) (l : List Char) : splitChar sep l ≠ [] := by
  induction l with
  | nil => simp [splitChar]
  | cons c cs ih =>
    by_cases h : c == sep
    · simp [splitChar, h]
    · simp only [splitChar, h, Bool.false_eq_true, if_false]
      cases hsp : splitChar sep cs <;> simp

theorem pySplitStr_ne_nil (sep : Char) (s : String) : pySplitStr sep s ≠ [] := by
  simp [pySplitStr, splitChar_ne_nil]

/-! ## `action_filter` semantics -/

theorem and_loop_neg (actions : CMap) (l : List String) :
    and_loop actions (-1) l = -1 := by
  induction l with
  | nil => rfl
  | cons a rest ih =>
    have hcond : ¬ (0 < lookup0 actions a ∧ (0:Int) ≤ -1) := by
      rintro ⟨-, h2⟩; omega
    simp [and_loop, hcond, ih]

theorem and_loop_spec (actions : CMap) (l : List String) :
    ∀ acc : Int, acc = 0 ∨ acc = 1 →
      and_loop actions acc l =
        if ∀ a ∈ l, 0 < lookup0 actions a then (if l = [] then acc else 1) else -1 := by
  induction l with
  | nil => intro acc hacc; simp [and_loop]
  | cons a rest ih =>
    intro acc hacc
    have h0 : (0:Int) ≤ acc := by rcases hacc with h | h <;> omega
    by_cases hpos : 0 < lookup0 actions a
    · have hstep : and_loop actions acc (a :: rest) = and_loop actions 1 rest := by
        simp [and_loop, hpos, h0]
      rw [hstep, ih 1 (Or.inr rfl)]
      by_cases hall : ∀ x ∈ rest, 0 < lookup0 actions x
      · simp [hall, hpos]
      · have hnall : ¬ ∀ x ∈ a :: rest, 0 < lookup0 actions x := by
          intro hx; exact hall (fun x hxm => hx x (List.mem_cons_of_mem a hxm))
        simp [hall, hnall]
    · have hstep : and_loop actions acc (a :: rest) = and_loop actions (-1) rest := by
        simp [and_loop, hpos]
      rw [hstep, and_loop_neg]
      simp [hpos]

theorem and_loop_zero_cases (actions : CMap) (l : List String) :
    and_loop actions 0 l = -1 ∨ and_loop actions 0 l = 0 ∨ and_loop actions 0 l = 1 := by
  rw [and_loop_spec actions l 0 (Or.inl rfl)]
  by_cases h : ∀ a ∈ l, 0 < lookup0 actions a
  · by_cases hl : l = []
    · rw [if_pos h, if_pos hl]; exact Or.inr (Or.inl rfl)
    · rw [if_pos h, if_neg hl]; exact Or.inr (Or.inr rfl)
  · rw [if_neg h]; exact Or.inl rfl

theorem and_loop_eq_one_iff (actions : CMap) (l : List String) (hne : l ≠ []) :
    and_loop actions 0 l = 1 ↔ ∀ a ∈ l, 0 < lookup0 actions a := by
  rw [and_loop_spec actions l 0 (Or.inl rfl)]
  by_cases hall : ∀ a ∈ l, 0 < lookup0 actions a
  · simp [hall, hne]
  · simp [hall]

theorem or_loop_one (actions : CMap) (ds : List String) :
    or_loop actions 1 ds = 1 := by
  induction ds with
  | nil => rfl
  | cons d rest ih => simp [or_loop, ih]

theorem or_loop_zero_iff (actions : CMap) (ds : List String) :
    or_loop actions 0 ds = 1 ↔ ∃ d ∈ ds, and_loop actions 0 (pySplitStr '&' d) = 1 := by
  induction ds with
  | nil => simp [or_loop]
  | cons d rest ih =>
    by_cases hd : 0 < and_loop actions 0 (pySplitStr '&' d)
    · have hone : and_loop actions 0 (pySplitStr '&' d) = 1 := by
        rcases and_loop_zero_cases actions (pySplitStr '&' d) with h | h | h <;> omega
      have : or_loop actions 0 (d :: rest) = or_loop actions 1 rest := by
        simp [or_loop, hd]
      rw [this, or_loop_one]
      simp only [eq_self_iff_true, true_iff]
      exact ⟨d, List.mem_cons_self d rest, hone⟩
    · have hne : and_loop actions 0 (pySplitStr '&' d) ≠ 1 := by omega
      have : or_loop actions 0 (d :: rest) = or_loop actions 0 rest := by
        simp [or_loop, hd]
      rw [this, ih]
      constructor
      · rintro ⟨x, hx, hx1⟩; exact ⟨x, List.mem_cons_of_mem d hx, hx1⟩
      · rintro ⟨x, hx, hx1⟩
        rcases List.mem_cons.mp hx with rfl | hx'
        · exact absurd hx1 hne
        · exact ⟨x, hx', hx1⟩

theorem action_filter_some_iff (cs : ClientStat) (f : String) :
    cs.action_filter (some f) = true ↔
      ∃ d ∈ pySplitStr '|' f, ∀ a ∈ pySplitStr '&' d, 0 < lookup0 cs.actions a := by
  have hfilter : cs.action_filter (some f) = true ↔
      or_loop cs.actions 0 (pySplitStr '|' f) = 1 := by
    unfold ClientStat.action_filter
    by_cases h : or_loop cs.actions 0 (pySplitStr '|' f) = 1 <;> simp [h]
  rw [hfilter, or_loop_zero_iff]
  constructor
  · rintro ⟨d, hd, h1⟩
    exact ⟨d, hd, (and_loop_eq_one_iff cs.actions _ (pySplitStr_ne_nil '&' d)).mp h1⟩
  · rintro ⟨d, hd, h1⟩
    exact ⟨d, hd, (and_loop_eq_one_iff cs.actions _ (pySplitStr_ne_nil '&' d)).mpr h1⟩

/-! ## Claims about the filter evaluator and the timestamp conversion -/

/-- C1: `gen_unix_ts` evaluates `int(now_ts)` on a `datetime` value
before any parsing, so every call fails with a `TypeError` — for every
behavior of the time library (`env`), both timestamp formats and every
input string — and never returns a unix timestamp; consequently the
CONNECT branch of the aggregation loop, which always calls
`gen_unix_ts`, fails on every CONNECT event for both a fresh and a known
client IP. -/
theorem C1_gen_unix_ts_always_fails :
    (∀ (env : TimeEnv) (rfc3339 : Bool) (year : Nat) (ts : String),
        gen_unix_ts env rfc3339 year ts =
          .error "TypeError: int() argument cannot be a datetime")
    ∧ (∀ (env : TimeEnv) (rfc3339 : Bool) (year : Nat) (m : IPMap) (ip date : String),
        processConnect env rfc3339 year m ip date =
          .error "TypeError: int() argument cannot be a datetime") := by
  constructor
  · intro env rfc3339 year ts; rfl
  · intro env rfc3339 year m ip date
    unfold processConnect
    cases h : findClient m ip <;> rfl

/-- C3 (code bug): the `COMEBACK` classification chain uses the guards
`delay < 10` and `10 < delay <= 30`, both of which exclude a delay of
exactly `10`; that delay falls through every guard into the final `else`
bucket `'>24h'` instead of the claimed `'10s to 30s'`. A delay of
exactly `30` does land in `'10s to 30s'`, and the other boundary values
follow the claimed ranges; a full client record with delay `10` is
likewise counted under `'>24h'` by the summarizer accumulation. -/
theorem C3_delay_ten_miscounted :
    comebackKey 10 = ">24h"
    ∧ comebackKey 30 = "10s to 30s"
    ∧ comebackKey 9 = "<10s"
    ∧ comebackKey 11 = "10s to 30s"
    ∧ comebackKey 31 = ">30s to 1min"
    ∧ comebackKey 60 = ">30s to 1min"
    ∧ comebackKey 61 = ">1min to 5min"
    ∧ comebackKey 86400 = ">12h to 24h"
    ∧ comebackKey 86401 = ">24h"
    ∧ (accumulateClient none initSummary
        (ClientStat.mk
          [("FIRST SEEN", 100), ("LAST SEEN", 110), ("CONNECT", 2),
            ("RECO. DELAY (graylist)", 10)]
          [("PASS OLD", 1)] [])).toOption.map
        (fun s => (lookup0 s.comeback ">24h", lookup0 s.comeback "10s to 30s"))
      = some (1, 0) := by
  decide

/-- C4: `action_filter` returns true iff at least one of the
`|`-separated disjuncts of the filter string has all of its
`&`-separated literals stored with a positive count, a `None` filter
always passes, and the claim's concrete examples evaluate as stated. -/
theorem C4_action_filter_semantics :
    (∀ (cs : ClientStat) (f : String),
        cs.action_filter (some f) = true ↔
          ∃ d ∈ pySplitStr '|' f, ∀ a ∈ pySplitStr '&' d, 0 < lookup0 cs.actions a)
    ∧ (∀ cs : ClientStat, cs.action_filter none = true)
    ∧ (ClientStat.mk [] [("PREGREET", 1), ("DNSBL", 1)] []).action_filter
        (some "PREGREET&DNSBL|HANGUP") = true
    ∧ (ClientStat.mk [] [("HANGUP", 1)] []).action_filter
        (some "PREGREET&DNSBL|HANGUP") = true
    ∧ (ClientStat.mk [] [("PREGREET", 1)] []).action_filter
        (some "PREGREET&DNSBL|HANGUP") = false
    ∧ (ClientStat.mk [] [] []).action_filter none = true :=
  ⟨action_filter_some_iff, fun _ => rfl, by decide, by decide, by decide, by decide⟩

/-- C5 (code bug): on a client set where some filter-passing client has
a positive DNSBL count (here: one client with one DNSBL hit of rank 5
and no action filter), the average-DNSBL-rank step divides by
`POSTSCREEN_STATS["dnsbl"]` — a lowercase key that is never written and
therefore `0` — so the summarizer raises `ZeroDivisionError` instead of
reporting the claimed sum-over-count average. -/
theorem C5_dnsbl_average_crashes :
    summarize
      [("1.2.3.4",
        ClientStat.mk [("FIRST SEEN", 100), ("LAST SEEN", 100), ("CONNECT", 1)]
          [("DNSBL", 1)] ["5"])] none
      = .error "ZeroDivisionError" := by
  rfl

/-- C6 counterexample: for the client whose only nonzero counter is the
key "NOQUEUE 450 deep protocol test reconnection", the filter literal
"NOQUEUE" evaluates to false — `action_filter` looks the literal up as
an exact `defaultdict` key, so prefix matching, as the claim states it,
does not hold. -/
theorem C6_counterexample :
    (ClientStat.mk [] [("NOQUEUE 450 deep protocol test reconnection", 1)] []).action_filter
      (some "NOQUEUE") = false := by
  decide

/-- C6 (amended): a filter literal is treated as present iff the
actions map holds that exact string as a key with a positive count — no
prefix matching. A single-literal filter (one with no `|` or `&`
separators, stated via its split being the singleton) passes exactly
when the exact key's count is positive; the literal "NOQUEUE" is not
present for a client whose only nonzero counter is
"NOQUEUE 450 deep protocol test reconnection", while the full key
string used as the literal is. -/
theorem C6_literal_exact_match :
    (∀ (cs : ClientStat) (a : String),
        pySplitStr '|' a = [a] → pySplitStr '&' a = [a] →
        (cs.action_filter (some a) = true ↔ 0 < lookup0 cs.actions a))
    ∧ (ClientStat.mk [] [("NOQUEUE 450 deep protocol test reconnection", 1)] []).action_filter
        (some "NOQUEUE 450 deep protocol test reconnection") = true := by
  constructor
  · intro cs a h1 h2
    rw [action_filter_some_iff, h1]
    simp [h2]
  · decide

/-- C10 counterexample: with an empty actions map, the filter "|" (two
empty disjuncts) evaluates to false, and with `HANGUP` stored positive
the filter "HANGUP&" (a trailing empty literal) also evaluates to
false; under the claim's vacuous-satisfaction rule both would be
true. -/
theorem C10_counterexample :
    (ClientStat.mk [] [] []).action_filter (some "|") = false
    ∧ (ClientStat.mk [] [("HANGUP", 1)] []).action_filter (some "HANGUP&") = false := by
  decide

/-- C10 (amended): the evaluator is total on every filter string (it
returns a boolean and never crashes), but an empty conjunct or disjunct
is not vacuously satisfied: an empty split segment becomes the literal
"" whose count is zero, so any disjunct containing an empty literal
evaluates negatively; evaluation still proceeds across the remaining
disjuncts, as "|HANGUP" shows. -/
theorem C10_empty_operand_semantics :
    (∀ (cs : ClientStat) (f : String),
        cs.action_filter (some f) = true ∨ cs.action_filter (some f) = false)
    ∧ (∀ (cs : ClientStat) (d : String), lookup0 cs.actions "" = 0 →
        "" ∈ pySplitStr '&' d → and_loop cs.actions 0 (pySplitStr '&' d) = -1)
    ∧ (ClientStat.mk [] [] []).action_filter (some "") = false
    ∧ (ClientStat.mk [] [("HANGUP", 1)] []).action_filter (some "|HANGUP") = true := by
  refine ⟨fun cs f => ?_, fun cs d h hm => ?_, by decide, by decide⟩
  · cases hh : cs.action_filter (some f)
    · exact Or.inr rfl
    · exact Or.inl rfl
  · rw [and_loop_spec cs.actions _ 0 (Or.inl rfl)]
    have hnall : ¬ ∀ a ∈ pySplitStr '&' d, 0 < lookup0 cs.actions a := by
      intro hall
      have := hall "" hm
      omega
    simp [hnall]

/-! ## IP-map lemmas -/

theorem findClient_setClient_self (m : IPMap) (ip : String) (cs : ClientStat) :
    findClient (setClient m ip cs) ip = some cs := by
  induction m with
  | nil => simp [setClient, findClient]
  | cons p rest ih =>
    obtain ⟨k, v⟩ := p
    by_cases h : k = ip
    · simp [setClient, h, findClient]
    · simp [setClient, h, findClient, ih]

theorem findClient_setClient_ne (m : IPMap) (ip ip' : String) (cs : ClientStat)
    (h : ip' ≠ ip) : findClient (setClient m ip cs) ip' = findClient m ip' := by
  have hip : ip ≠ ip' := fun hh => h hh.symm
  induction m with
  | nil => simp [setClient, findClient, hip]
  | cons p rest ih =>
    obtain ⟨k, v⟩ := p
    by_cases hk : k = ip
    · have hk' : k ≠ ip' := by rw [hk]; exact hip
      simp [setClient, hk, findClient, hk', hip]
    · simp [setClient, hk, findClient, ih]

/-! ## Effect of `applyKnown` on the `logs` counters -/

theorem applyKnown_logs (cs : ClientStat) (tok rest : String) (cs' : ClientStat)
    (h : applyKnown cs tok rest = .ok cs') :
    cs'.logs = cs.logs ∨
      (logLookup cs "CONNECT" = 2 ∧
        cs'.logs = setKey cs.logs "RECO. DELAY (graylist)"
          (logLookup cs "LAST SEEN" - logLookup cs "FIRST SEEN")) := by
  unfold applyKnown at h
  by_cases t1 : tok = "PASS"
  · rw [if_pos t1] at h
    by_cases p1 : pyStarts "OLD" rest = true
    · rw [if_pos p1] at h
      by_cases c1 : logLookup (incAction cs "PASS OLD") "CONNECT" = 2 ∧
          0 < actLookup (incAction cs "PASS OLD") "NOQUEUE 450 deep protocol test reconnection"
      · rw [if_pos c1] at h
        injection h with h2
        subst h2
        exact Or.inr ⟨c1.1, rfl⟩
      · rw [if_neg c1] at h; injection h with h2; subst h2; exact Or.inl rfl
    · rw [if_neg p1] at h
      by_cases p2 : pyStarts "NEW" rest = true
      · rw [if_pos p2] at h; injection h with h2; subst h2; exact Or.inl rfl
      · rw [if_neg p2] at h; injection h with h2; subst h2; exact Or.inl rfl
  · rw [if_neg t1] at h
    by_cases t2 : tok = "NOQUEUE:"
    · rw [if_pos t2] at h
      by_cases q1 : pySearch "too many connections" rest = true
      · rw [if_pos q1] at h; injection h with h2; subst h2; exact Or.inl rfl
      · rw [if_neg q1] at h
        by_cases q2 : pySearch "all server ports busy" tok = true
        · rw [if_pos q2] at h; injection h with h2; subst h2; exact Or.inl rfl
        · rw [if_neg q2] at h
          by_cases q3 : pySearch "450 4.3.2 Service currently unavailable" rest = true
          · rw [if_pos q3] at h; injection h with h2; subst h2; exact Or.inl rfl
          · rw [if_neg q3] at h; injection h with h2; subst h2; exact Or.inl rfl
    · rw [if_neg t2] at h
      by_cases t3 : tok = "HANGUP"
      · rw [if_pos t3] at h; injection h with h2; subst h2; exact Or.inl rfl
      · rw [if_neg t3] at h
        by_cases t4 : tok = "DNSBL"
        · rw [if_pos t4] at h
          rcases hsp : pySplitWs rest with _ | ⟨a, _ | ⟨b, l⟩⟩ <;> rw [hsp] at h
          · simp at h
          · simp at h
          · simp only [Except.ok.injEq] at h
            subst h
            exact Or.inl rfl
        · rw [if_neg t4] at h
          by_cases t5 : tok = "PREGREET"
          · rw [if_pos t5] at h; injection h with h2; subst h2; exact Or.inl rfl
          · rw [if_neg t5] at h
            by_cases t6 : tok = "COMMAND"
            · rw [if_pos t6] at h
              by_cases m1 : pyStarts "PIPELINING" rest = true
              · rw [if_pos m1] at h; injection h with h2; subst h2; exact Or.inl rfl
              · rw [if_neg m1] at h
                by_cases m2 : pyStarts "TIME LIMIT" rest = true
                · rw [if_pos m2] at h; injection h with h2; subst h2; exact Or.inl rfl
                · rw [if_neg m2] at h
                  by_cases m3 : pyStarts "COUNT LIMIT" rest = true
                  · rw [if_pos m3] at h; injection h with h2; subst h2; exact Or.inl rfl
                  · rw [if_neg m3] at h
                    by_cases m4 : pyStarts "LENGTH LIMIT" rest = true
                    · rw [if_pos m4] at h; injection h with h2; subst h2; exact Or.inl rfl
                    · rw [if_neg m4] at h; injection h with h2; subst h2; exact Or.inl rfl
            · rw [if_neg t6] at h
              by_cases t7 : tok = "WHITELISTED"
              · rw [if_pos t7] at h; injection h with h2; subst h2; exact Or.inl rfl
              · rw [if_neg t7] at h
                by_cases t8 : tok = "BLACKLISTED"
                · rw [if_pos t8] at h; injection h with h2; subst h2; exact Or.inl rfl
                · rw [if_neg t8] at h
                  by_cases t9 : tok = "BARE"
                  · rw [if_pos t9] at h
                    by_cases b1 : pyStarts "NEWLINE" rest = true
                    · rw [if_pos b1] at h; injection h with h2; subst h2; exact Or.inl rfl
                    · rw [if_neg b1] at h; injection h with h2; subst h2; exact Or.inl rfl
                  · rw [if_neg t9] at h
                    by_cases t10 : tok = "NON-SMTP"
                    · rw [if_pos t10] at h
                      by_cases n1 : pyStarts "COMMAND" rest = true
                      · rw [if_pos n1] at h; injection h with h2; subst h2; exact Or.inl rfl
                      · rw [if_neg n1] at h; injection h with h2; subst h2; exact Or.inl rfl
                    · rw [if_neg t10] at h
                      by_cases t11 : tok = "WHITELIST"
                      · rw [if_pos t11] at h
                        by_cases w1 : pyStarts "VETO" rest = true
                        · rw [if_pos w1] at h; injection h with h2; subst h2; exact Or.inl rfl
                        · rw [if_neg w1] at h; injection h with h2; subst h2; exact Or.inl rfl
                      · rw [if_neg t11] at h; injection h with h2; subst h2; exact Or.inl rfl

theorem applyKnown_logLookup (cs : ClientStat) (tok rest : String) (cs' : ClientStat)
    (h : applyKnown cs tok rest = .ok cs') (k : String)
    (hk : k ≠ "RECO. DELAY (graylist)") : logLookup cs' k = logLookup cs k := by
  rcases applyKnown_logs cs tok rest cs' h with hsame | ⟨-, hset⟩
  · unfold logLookup; rw [hsame]
  · unfold logLookup; rw [hset]; exact lookup0_setKey_ne _ _ _ _ hk

/-! ## Lookups after a CONNECT update -/

theorem connUpd_none_first (ts : Int) : logLookup (connUpd none ts) "FIRST SEEN" = ts := rfl

theorem connUpd_none_last (ts : Int) : logLookup (connUpd none ts) "LAST SEEN" = ts := rfl

theorem connUpd_none_connect (ts : Int) : logLookup (connUpd none ts) "CONNECT" = 1 := rfl

theorem connUpd_some_first (cs : ClientStat) (ts : Int) :
    logLookup (connUpd (some cs) ts) "FIRST SEEN" = logLookup cs "FIRST SEEN" := by
  show lookup0 (incKey (setKey cs.logs "LAST SEEN" ts) "CONNECT") "FIRST SEEN" =
    lookup0 cs.logs "FIRST SEEN"
  rw [lookup0_incKey_ne _ _ _ (by decide), lookup0_setKey_ne _ _ _ _ (by decide)]

theorem connUpd_some_last (cs : ClientStat) (ts : Int) :
    logLookup (connUpd (some cs) ts) "LAST SEEN" = ts := by
  show lookup0 (incKey (setKey cs.logs "LAST SEEN" ts) "CONNECT") "LAST SEEN" = ts
  rw [lookup0_incKey_ne _ _ _ (by decide), lookup0_setKey_self]

theorem connUpd_some_connect (cs : ClientStat) (ts : Int) :
    logLookup (connUpd (some cs) ts) "CONNECT" = logLookup cs "CONNECT" + 1 := by
  show lookup0 (incKey (setKey cs.logs "LAST SEEN" ts) "CONNECT") "CONNECT" =
    lookup0 cs.logs "CONNECT" + 1
  rw [lookup0_incKey_self, lookup0_setKey_ne _ _ _ _ (by decide)]

theorem connUpd_some_delay (cs : ClientStat) (ts : Int) :
    logLookup (connUpd (some cs) ts) "RECO. DELAY (graylist)" =
      logLookup cs "RECO. DELAY (graylist)" := by
  show lookup0 (incKey (setKey cs.logs "LAST SEEN" ts) "CONNECT") "RECO. DELAY (graylist)" =
    lookup0 cs.logs "RECO. DELAY (graylist)"
  rw [lookup0_incKey_ne _ _ _ (by decide), lookup0_setKey_ne _ _ _ _ (by decide)]

/-- C8: processing any non-CONNECT event whose source IP has no entry in
`IP_LIST` is a no-op — no `ClientStat` is created, the whole mapping is
returned unchanged, and no error is raised (the `.ok` result is the very
`elif current_ip in IP_LIST` guard of source line 240). -/
theorem C8_unknown_ip_noop (m : IPMap) (e : LogEvent)
    (htok : e.tok ≠ "CONNECT") (hfind : findClient m e.ip = none) :
    step m e = .ok m := by
  unfold step
  rw [if_neg htok, hfind]

/-- Witness for C8: a HANGUP event from an IP absent from a one-client
mapping leaves that mapping unchanged. -/
theorem C8_unknown_ip_noop_witness :
    step [("1.1.1.1", ClientStat.mk [("CONNECT", 1)] [] [])]
        (LogEvent.mk "2.2.2.2" "HANGUP" "" 0)
      = .ok [("1.1.1.1", ClientStat.mk [("CONNECT", 1)] [] [])] :=
  C8_unknown_ip_noop _ _ (by decide) (by decide)

/-- C9 (code bug): for a known client, a `NOQUEUE:` line whose remainder
contains "all server ports busy" never increments the
"NOQUEUE all server ports busy" counter, because source line 260
searches inside `line_fields[LOG_CURSOR]` — the token `"NOQUEUE:"`
itself — instead of the remainder; in fact no `NOQUEUE:` event
whatsoever can change that counter, and the concrete ports-busy line
leaves the client record entirely unchanged. -/
theorem C9_ports_busy_never_counted :
    (∀ (cs cs' : ClientStat) (rest : String),
        applyKnown cs "NOQUEUE:" rest = .ok cs' →
        actLookup cs' "NOQUEUE all server ports busy" =
          actLookup cs "NOQUEUE all server ports busy")
    ∧ applyKnown (ClientStat.mk [("CONNECT", 1)] [] []) "NOQUEUE:"
        "reject: RCPT from unknown[5.6.7.8]:12345: all server ports busy"
      = .ok (ClientStat.mk [("CONNECT", 1)] [] []) := by
  constructor
  · intro cs cs' rest h
    unfold applyKnown at h
    rw [if_neg (by decide : ¬ ("NOQUEUE:" : String) = "PASS"),
      if_pos (rfl : ("NOQUEUE:" : String) = "NOQUEUE:")] at h
    by_cases q1 : pySearch "too many connections" rest = true
    · rw [if_pos q1] at h
      injection h with h2
      subst h2
      exact lookup0_incKey_ne cs.actions _ _ (by decide)
    · rw [if_neg q1,
        if_neg (by decide : ¬ (pySearch "all server ports busy" "NOQUEUE:" = true))] at h
      by_cases q3 : pySearch "450 4.3.2 Service currently unavailable" rest = true
      · rw [if_pos q3] at h
        injection h with h2
        subst h2
        exact lookup0_incKey_ne cs.actions _ _ (by decide)
      · rw [if_neg q3] at h
        injection h with h2
        subst h2
        rfl
  · rfl

/-- Witness for C9: a `NOQUEUE:` line that does match the "too many
connections" pattern increments only that counter and leaves the
ports-busy counter at zero. -/
theorem C9_ports_busy_never_counted_witness :
    actLookup (ClientStat.mk [("CONNECT", 1)] [("NOQUEUE too many connections", 1)] [])
        "NOQUEUE all server ports busy"
      = actLookup (ClientStat.mk [("CONNECT", 1)] [] []) "NOQUEUE all server ports busy" :=
  C9_ports_busy_never_counted.1 _ _
    "reject: RCPT from unknown[5.6.7.8]:12345: too many connections" (by rfl)

/-! ## The graylist reconnection delay is stable once set (C2) -/

/-- Invariant tracked after the delay of client `ip` has been set:
the client exists, its CONNECT counter is at least 2, its stored delay
is `L - F`, and as long as the CONNECT counter is still exactly 2 its
`LAST SEEN` and `FIRST SEEN` values are still `L` and `F` (they can only
move together with a CONNECT increment). -/
def DelayInv (ip : String) (L F : Int) (m : IPMap) : Prop :=
  ∃ cs, findClient m ip = some cs ∧ 2 ≤ logLookup cs "CONNECT" ∧
    logLookup cs "RECO. DELAY (graylist)" = L - F ∧
    (logLookup cs "CONNECT" = 2 →
      logLookup cs "LAST SEEN" = L ∧ logLookup cs "FIRST SEEN" = F)

theorem step_delayInv (ip : String) (L F : Int) (e : LogEvent) (m m' : IPMap)
    (hI : DelayInv ip L F m) (hs : step m e = .ok m') : DelayInv ip L F m' := by
  obtain ⟨cs, hfind, hc2, hdel, himp⟩ := hI
  unfold step at hs
  by_cases htok : e.tok = "CONNECT"
  · rw [if_pos htok] at hs
    injection hs with hs2
    subst hs2
    by_cases hip : e.ip = ip
    · rw [hip, hfind]
      refine ⟨connUpd (some cs) e.ts, findClient_setClient_self m ip _, ?_, ?_, ?_⟩
      · rw [connUpd_some_connect]; omega
      · rw [connUpd_some_delay]; exact hdel
      · rw [connUpd_some_connect]; intro habs; omega
    · refine ⟨cs, ?_, hc2, hdel, himp⟩
      rw [findClient_setClient_ne m e.ip ip _ (fun hh => hip hh.symm)]
      exact hfind
  · rw [if_neg htok] at hs
    by_cases hip : e.ip = ip
    · rw [hip] at hs
      simp only [hfind] at hs
      cases happ : applyKnown cs e.tok e.rest with
      | error err =>
        simp only [happ] at hs
        exact Except.noConfusion hs
      | ok cs1 =>
        simp only [happ] at hs
        injection hs with hs2
        subst hs2
        refine ⟨cs1, findClient_setClient_self m ip _, ?_, ?_, ?_⟩
        · rw [applyKnown_logLookup cs e.tok e.rest cs1 happ "CONNECT" (by decide)]
          exact hc2
        · rcases applyKnown_logs cs e.tok e.rest cs1 happ with hsame | ⟨hcon2, hset⟩
          · unfold logLookup
            rw [hsame]
            exact hdel
          · unfold logLookup
            rw [hset, lookup0_setKey_self]
            obtain ⟨hL, hF⟩ := himp hcon2
            rw [hL, hF]
        · intro hcon
          rw [applyKnown_logLookup cs e.tok e.rest cs1 happ "CONNECT" (by decide)] at hcon
          refine ⟨?_, ?_⟩
          · rw [applyKnown_logLookup cs e.tok e.rest cs1 happ "LAST SEEN" (by decide)]
            exact (himp hcon).1
          · rw [applyKnown_logLookup cs e.tok e.rest cs1 happ "FIRST SEEN" (by decide)]
            exact (himp hcon).2
    · cases hfind0 : findClient m e.ip with
      | none =>
        simp only [hfind0] at hs
        injection hs with hs2
        subst hs2
        exact ⟨cs, hfind, hc2, hdel, himp⟩
      | some cs0 =>
        simp only [hfind0] at hs
        cases happ : applyKnown cs0 e.tok e.rest with
        | error err =>
          simp only [happ] at hs
          exact Except.noConfusion hs
        | ok cs1 =>
          simp only [happ] at hs
          injection hs with hs2
          subst hs2
          refine ⟨cs, ?_, hc2, hdel, himp⟩
          rw [findClient_setClient_ne m e.ip ip _ (fun hh => hip hh.symm)]
          exact hfind

theorem runMap_delayInv (ip : String) (L F : Int) (es : List LogEvent) :
    ∀ m m', DelayInv ip L F m → runMap m es = .ok m' → DelayInv ip L F m' := by
  induction es with
  | nil =>
    intro m m' hI h
    unfold runMap at h
    injection h with h2
    subst h2
    exact hI
  | cons e rest ih =>
    intro m m' hI h
    unfold runMap at h
    cases hs : step m e with
    | error err =>
      simp only [hs] at h
      exact Except.noConfusion h
    | ok m1 =>
      simp only [hs] at h
      exact ih m1 m' (step_delayInv ip L F e m m1 hI hs) h

theorem step_known (m : IPMap) (e : LogEvent) (cs cs1 : ClientStat)
    (htok : e.tok ≠ "CONNECT") (hfind : findClient m e.ip = some cs)
    (happ : applyKnown cs e.tok e.rest = .ok cs1) :
    step m e = .ok (setClient m e.ip cs1) := by
  unfold step
  rw [if_neg htok]
  simp only [hfind, happ]

/-- C2: when a PASS-OLD event for client `ip` is aggregated while the
client's CONNECT counter equals 2 and its
"NOQUEUE 450 deep protocol test reconnection" counter is positive, the
stored `RECO. DELAY (graylist)` equals exactly
`LAST SEEN - FIRST SEEN` as read at that point; and after any further
event sequence for any clients — which may include more PASS-OLD events
for this client, and a third one after a further CONNECT — the stored
value is still that same number, so later PASS-OLD events never change
it. -/
theorem C2_reco_delay_set_once (m : IPMap) (ip rest : String) (ts0 : Int)
    (cs : ClientStat)
    (hfind : findClient m ip = some cs)
    (hold : pyStarts "OLD" rest = true)
    (hc : logLookup cs "CONNECT" = 2)
    (hnq : 0 < actLookup cs "NOQUEUE 450 deep protocol test reconnection")
    (m1 : IPMap) (hstep : step m (LogEvent.mk ip "PASS" rest ts0) = .ok m1) :
    ∃ cs1, findClient m1 ip = some cs1 ∧
      logLookup cs1 "RECO. DELAY (graylist)" =
        logLookup cs "LAST SEEN" - logLookup cs "FIRST SEEN" ∧
      ∀ (es : List LogEvent) (m2 : IPMap) (cs2 : ClientStat),
        runMap m1 es = .ok m2 → findClient m2 ip = some cs2 →
        logLookup cs2 "RECO. DELAY (graylist)" =
          logLookup cs "LAST SEEN" - logLookup cs "FIRST SEEN" := by
  have hcond : logLookup (incAction cs "PASS OLD") "CONNECT" = 2 ∧
      0 < actLookup (incAction cs "PASS OLD")
        "NOQUEUE 450 deep protocol test reconnection" := by
    constructor
    · exact hc
    · show 0 < lookup0 (incKey cs.actions "PASS OLD")
        "NOQUEUE 450 deep protocol test reconnection"
      rw [lookup0_incKey_ne cs.actions _ _ (by decide)]
      exact hnq
  have happ : applyKnown cs "PASS" rest = .ok (setLog (incAction cs "PASS OLD")
      "RECO. DELAY (graylist)"
      (logLookup (incAction cs "PASS OLD") "LAST SEEN" -
        logLookup (incAction cs "PASS OLD") "FIRST SEEN")) := by
    unfold applyKnown
    rw [if_pos (rfl : ("PASS" : String) = "PASS"), if_pos hold, if_pos hcond]
  have hstep' := step_known m (LogEvent.mk ip "PASS" rest ts0) cs _
    (show ("PASS" : String) ≠ "CONNECT" by decide) hfind happ
  rw [hstep] at hstep'
  injection hstep' with hm1
  subst hm1
  have hdelval : logLookup (setLog (incAction cs "PASS OLD") "RECO. DELAY (graylist)"
      (logLookup (incAction cs "PASS OLD") "LAST SEEN" -
        logLookup (incAction cs "PASS OLD") "FIRST SEEN")) "RECO. DELAY (graylist)" =
      logLookup cs "LAST SEEN" - logLookup cs "FIRST SEEN" := by
    show lookup0 (setKey (incAction cs "PASS OLD").logs "RECO. DELAY (graylist)" _)
      "RECO. DELAY (graylist)" = _
    rw [lookup0_setKey_self]
    rfl
  have hconn : logLookup (setLog (incAction cs "PASS OLD") "RECO. DELAY (graylist)"
      (logLookup (incAction cs "PASS OLD") "LAST SEEN" -
        logLookup (incAction cs "PASS OLD") "FIRST SEEN")) "CONNECT" = 2 := by
    show lookup0 (setKey (incAction cs "PASS OLD").logs "RECO. DELAY (graylist)" _)
      "CONNECT" = 2
    rw [lookup0_setKey_ne _ _ _ _ (by decide)]
    exact hc
  have hlast : logLookup (setLog (incAction cs "PASS OLD") "RECO. DELAY (graylist)"
      (logLookup (incAction cs "PASS OLD") "LAST SEEN" -
        logLookup (incAction cs "PASS OLD") "FIRST SEEN")) "LAST SEEN" =
      logLookup cs "LAST SEEN" := by
    show lookup0 (setKey (incAction cs "PASS OLD").logs "RECO. DELAY (graylist)" _)
      "LAST SEEN" = _
    rw [lookup0_setKey_ne _ _ _ _ (by decide)]
    rfl
  have hfirst : logLookup (setLog (incAction cs "PASS OLD") "RECO. DELAY (graylist)"
      (logLookup (incAction cs "PASS OLD") "LAST SEEN" -
        logLookup (incAction cs "PASS OLD") "FIRST SEEN")) "FIRST SEEN" =
      logLookup cs "FIRST SEEN" := by
    show lookup0 (setKey (incAction cs "PASS OLD").logs "RECO. DELAY (graylist)" _)
      "FIRST SEEN" = _
    rw [lookup0_setKey_ne _ _ _ _ (by decide)]
    rfl
  refine ⟨_, findClient_setClient_self m ip _, hdelval, ?_⟩
  intro es m2 cs2 hrun hfind2
  have hInv0 : DelayInv ip (logLookup cs "LAST SEEN") (logLookup cs "FIRST SEEN")
      (setClient m ip _) :=
    ⟨_, findClient_setClient_self m ip _, by rw [hconn], hdelval,
      fun _ => ⟨hlast, hfirst⟩⟩
  obtain ⟨cs2', hf2', hcon2', hdel2', himp2'⟩ :=
    runMap_delayInv ip (logLookup cs "LAST SEEN") (logLookup cs "FIRST SEEN")
      es _ m2 hInv0 hrun
  rw [hfind2] at hf2'
  injection hf2' with he
  rw [he]
  exact hdel2'

/-- Witness for C2: a client with `FIRST SEEN = 100`, `LAST SEEN = 160`,
`CONNECT = 2` and one graylist rejection; its PASS-OLD event stores a
delay of `160 - 100` and no later event sequence changes it. -/
theorem C2_reco_delay_set_once_witness :
    ∃ cs1,
      findClient [("9.9.9.9", ClientStat.mk
          [("FIRST SEEN", 100), ("LAST SEEN", 160), ("CONNECT", 2),
            ("RECO. DELAY (graylist)", 60)]
          [("NOQUEUE 450 deep protocol test reconnection", 1), ("PASS OLD", 1)] [])]
        "9.9.9.9" = some cs1 ∧
      logLookup cs1 "RECO. DELAY (graylist)" =
        logLookup (ClientStat.mk
          [("FIRST SEEN", 100), ("LAST SEEN", 160), ("CONNECT", 2)]
          [("NOQUEUE 450 deep protocol test reconnection", 1)] []) "LAST SEEN" -
        logLookup (ClientStat.mk
          [("FIRST SEEN", 100), ("LAST SEEN", 160), ("CONNECT", 2)]
          [("NOQUEUE 450 deep protocol test reconnection", 1)] []) "FIRST SEEN" ∧
      ∀ (es : List LogEvent) (m2 : IPMap) (cs2 : ClientStat),
        runMap [("9.9.9.9", ClientStat.mk
            [("FIRST SEEN", 100), ("LAST SEEN", 160), ("CONNECT", 2),
              ("RECO. DELAY (graylist)", 60)]
            [("NOQUEUE 450 deep protocol test reconnection", 1), ("PASS OLD", 1)] [])]
          es = .ok m2 →
        findClient m2 "9.9.9.9" = some cs2 →
        logLookup cs2 "RECO. DELAY (graylist)" =
          logLookup (ClientStat.mk
            [("FIRST SEEN", 100), ("LAST SEEN", 160), ("CONNECT", 2)]
            [("NOQUEUE 450 deep protocol test reconnection", 1)] []) "LAST SEEN" -
          logLookup (ClientStat.mk
            [("FIRST SEEN", 100), ("LAST SEEN", 160), ("CONNECT", 2)]
            [("NOQUEUE 450 deep protocol test reconnection", 1)] []) "FIRST SEEN" :=
  C2_reco_delay_set_once
    [("9.9.9.9", ClientStat.mk
        [("FIRST SEEN", 100), ("LAST SEEN", 160), ("CONNECT", 2)]
        [("NOQUEUE 450 deep protocol test reconnection", 1)] [])]
    "9.9.9.9" "OLD x" 170
    (ClientStat.mk [("FIRST SEEN", 100), ("LAST SEEN", 160), ("CONNECT", 2)]
      [("NOQUEUE 450 deep protocol test reconnection", 1)] [])
    (by decide) (by decide) (by decide) (by decide)
    [("9.9.9.9", ClientStat.mk
        [("FIRST SEEN", 100), ("LAST SEEN", 160), ("CONNECT", 2),
          ("RECO. DELAY (graylist)", 60)]
        [("NOQUEUE 450 deep protocol test reconnection", 1), ("PASS OLD", 1)] [])]
    (by rfl)

/-! ## FIRST SEEN / LAST SEEN / CONNECT invariants (C7) -/

/-- Every stored client has a positive CONNECT count. -/
def ConnInv (m : IPMap) : Prop :=
  ∀ ip cs, findClient m ip = some cs → 1 ≤ logLookup cs "CONNECT"

/-- Every stored client's `FIRST SEEN` is at most its `LAST SEEN`. -/
def SeenInv (m : IPMap) : Prop :=
  ∀ ip cs, findClient m ip = some cs →
    logLookup cs "FIRST SEEN" ≤ logLookup cs "LAST SEEN"

/-- Every stored `LAST SEEN` is a lower bound of the timestamps in
`ts` (the CONNECT timestamps still to be processed). -/
def LastLE (m : IPMap) (ts : List Int) : Prop :=
  ∀ ip cs, findClient m ip = some cs → ∀ t ∈ ts, logLookup cs "LAST SEEN" ≤ t

theorem step_connInv (m m' : IPMap) (e : LogEvent) (hI : ConnInv m)
    (hs : step m e = .ok m') : ConnInv m' := by
  unfold step at hs
  by_cases htok : e.tok = "CONNECT"
  · rw [if_pos htok] at hs
    cases hfind0 : findClient m e.ip with
    | none =>
      rw [hfind0] at hs
      injection hs with hs2
      subst hs2
      intro ip cs hf
      by_cases hip : ip = e.ip
      · subst hip
        rw [findClient_setClient_self] at hf
        injection hf with hf2
        subst hf2
        rw [connUpd_none_connect]
      · rw [findClient_setClient_ne m e.ip ip _ hip] at hf
        exact hI ip cs hf
    | some cs0 =>
      rw [hfind0] at hs
      injection hs with hs2
      subst hs2
      intro ip cs hf
      by_cases hip : ip = e.ip
      · subst hip
        rw [findClient_setClient_self] at hf
        injection hf with hf2
        subst hf2
        rw [connUpd_some_connect]
        have := hI e.ip cs0 hfind0
        omega
      · rw [findClient_setClient_ne m e.ip ip _ hip] at hf
        exact hI ip cs hf
  · rw [if_neg htok] at hs
    cases hfind0 : findClient m e.ip with
    | none =>
      simp only [hfind0] at hs
      injection hs with hs2
      subst hs2
      exact hI
    | some cs0 =>
      simp only [hfind0] at hs
      cases happ : applyKnown cs0 e.tok e.rest with
      | error err => simp only [happ] at hs; exact Except.noConfusion hs
      | ok cs1 =>
        simp only [happ] at hs
        injection hs with hs2
        subst hs2
        intro ip cs hf
        by_cases hip : ip = e.ip
        · subst hip
          rw [findClient_setClient_self] at hf
          injection hf with hf2
          subst hf2
          rw [applyKnown_logLookup cs0 e.tok e.rest cs1 happ "CONNECT" (by decide)]
          exact hI e.ip cs0 hfind0
        · rw [findClient_setClient_ne m e.ip ip _ hip] at hf
          exact hI ip cs hf

theorem runMap_connInv (es : List LogEvent) :
    ∀ m m', ConnInv m → runMap m es = .ok m' → ConnInv m' := by
  induction es with
  | nil =>
    intro m m' hI h
    unfold runMap at h
    injection h with h2
    subst h2
    exact hI
  | cons e rest ih =>
    intro m m' hI h
    unfold runMap at h
    cases hs : step m e with
    | error err => simp only [hs] at h; exact Except.noConfusion h
    | ok m1 =>
      simp only [hs] at h
      exact ih m1 m' (step_connInv m m1 e hI hs) h

theorem runMap_seenInv (es : List LogEvent) :
    ∀ m m', (connectTs es).Pairwise (· ≤ ·) → SeenInv m → LastLE m (connectTs es) →
      runMap m es = .ok m' → SeenInv m' := by
  induction es with
  | nil =>
    intro m m' _ hI _ h
    unfold runMap at h
    injection h with h2
    subst h2
    exact hI
  | cons e rest ih =>
    intro m m' hpw hI hB h
    unfold runMap at h
    cases hs : step m e with
    | error err => simp only [hs] at h; exact Except.noConfusion h
    | ok m1 =>
      simp only [hs] at h
      unfold step at hs
      by_cases htok : e.tok = "CONNECT"
      · rw [if_pos htok] at hs
        have hcts : connectTs (e :: rest) = e.ts :: connectTs rest := by
          show (if e.tok = "CONNECT" then e.ts :: connectTs rest else connectTs rest) = _
          rw [if_pos htok]
        rw [hcts] at hpw hB
        have hpw' : (connectTs rest).Pairwise (· ≤ ·) := (List.pairwise_cons.mp hpw).2
        have hhead : ∀ t ∈ connectTs rest, e.ts ≤ t := (List.pairwise_cons.mp hpw).1
        cases hfind0 : findClient m e.ip with
        | none =>
          rw [hfind0] at hs
          injection hs with hs2
          subst hs2
          refine ih _ m' hpw' ?_ ?_ h
          · intro ip cs hf
            by_cases hip : ip = e.ip
            · subst hip
              rw [findClient_setClient_self] at hf
              injection hf with hf2
              subst hf2
              rw [connUpd_none_first, connUpd_none_last]
            · rw [findClient_setClient_ne m e.ip ip _ hip] at hf
              exact hI ip cs hf
          · intro ip cs hf t ht
            by_cases hip : ip = e.ip
            · subst hip
              rw [findClient_setClient_self] at hf
              injection hf with hf2
              subst hf2
              rw [connUpd_none_last]
              exact hhead t ht
            · rw [findClient_setClient_ne m e.ip ip _ hip] at hf
              exact hB ip cs hf t (List.mem_cons_of_mem _ ht)
        | some cs0 =>
          rw [hfind0] at hs
          injection hs with hs2
          subst hs2
          have hts0 : logLookup cs0 "LAST SEEN" ≤ e.ts :=
            hB e.ip cs0 hfind0 e.ts (List.mem_cons_self _ _)
          refine ih _ m' hpw' ?_ ?_ h
          · intro ip cs hf
            by_cases hip : ip = e.ip
            · subst hip
              rw [findClient_setClient_self] at hf
              injection hf with hf2
              subst hf2
              rw [connUpd_some_first, connUpd_some_last]
              exact le_trans (hI e.ip cs0 hfind0) hts0
            · rw [findClient_setClient_ne m e.ip ip _ hip] at hf
              exact hI ip cs hf
          · intro ip cs hf t ht
            by_cases hip : ip = e.ip
            · subst hip
              rw [findClient_setClient_self] at hf
              injection hf with hf2
              subst hf2
              rw [connUpd_some_last]
              exact hhead t ht
            · rw [findClient_setClient_ne m e.ip ip _ hip] at hf
              exact hB ip cs hf t (List.mem_cons_of_mem _ ht)
      · rw [if_neg htok] at hs
        have hcts : connectTs (e :: rest) = connectTs rest := by
          show (if e.tok = "CONNECT" then e.ts :: connectTs rest else connectTs rest) = _
          rw [if_neg htok]
        rw [hcts] at hpw hB
        cases hfind0 : findClient m e.ip with
        | none =>
          simp only [hfind0] at hs
          injection hs with hs2
          subst hs2
          exact ih _ m' hpw hI hB h
        | some cs0 =>
          simp only [hfind0] at hs
          cases happ : applyKnown cs0 e.tok e.rest with
          | error err => simp only [happ] at hs; exact Except.noConfusion hs
          | ok cs1 =>
            simp only [happ] at hs
            injection hs with hs2
            subst hs2
            refine ih _ m' hpw ?_ ?_ h
            · intro ip cs hf
              by_cases hip : ip = e.ip
              · subst hip
                rw [findClient_setClient_self] at hf
                injection hf with hf2
                subst hf2
                rw [applyKnown_logLookup cs0 e.tok e.rest cs1 happ "FIRST SEEN" (by decide),
                  applyKnown_logLookup cs0 e.tok e.rest cs1 happ "LAST SEEN" (by decide)]
                exact hI e.ip cs0 hfind0
              · rw [findClient_setClient_ne m e.ip ip _ hip] at hf
                exact hI ip cs hf
            · intro ip cs hf t ht
              by_cases hip : ip = e.ip
              · subst hip
                rw [findClient_setClient_self] at hf
                injection hf with hf2
                subst hf2
                rw [applyKnown_logLookup cs0 e.tok e.rest cs1 happ "LAST SEEN" (by decide)]
                exact hB e.ip cs0 hfind0 t ht
              · rw [findClient_setClient_ne m e.ip ip _ hip] at hf
                exact hB ip cs hf t ht

/-- C7 counterexample: two well-formed CONNECT events for the same IP
whose timestamps decrease (100 then 50) produce a record with
`FIRST SEEN = 100 > LAST SEEN = 50`, because `LAST SEEN` is overwritten
with each CONNECT's timestamp unconditionally; so the invariant as
claimed fails for out-of-order timestamps. -/
theorem C7_counterexample :
    runMap []
        [LogEvent.mk "1.2.3.4" "CONNECT" "from x" 100,
         LogEvent.mk "1.2.3.4" "CONNECT" "from x" 50]
      = .ok [("1.2.3.4",
          ClientStat.mk [("FIRST SEEN", 100), ("LAST SEEN", 50), ("CONNECT", 2)] [] [])]
    ∧ ¬ (logLookup (ClientStat.mk
          [("FIRST SEEN", 100), ("LAST SEEN", 50), ("CONNECT", 2)] [] []) "FIRST SEEN"
        ≤ logLookup (ClientStat.mk
          [("FIRST SEEN", 100), ("LAST SEEN", 50), ("CONNECT", 2)] [] []) "LAST SEEN") :=
  ⟨by rfl, by decide⟩

/-- C7 (amended): starting from the empty `IP_LIST` and aggregating any
event list, every client record that exists satisfies `CONNECT >= 1`
unconditionally; and provided the CONNECT timestamps are non-decreasing
in aggregation order — as in a chronologically ordered log, the
hypothesis the counterexample shows is necessary —
`FIRST SEEN <= LAST SEEN` holds for every client record. -/
theorem C7_first_last_connect_invariant :
    (∀ (es : List LogEvent) (m : IPMap), runMap [] es = .ok m →
        ∀ (ip : String) (cs : ClientStat), findClient m ip = some cs →
          1 ≤ logLookup cs "CONNECT")
    ∧ (∀ (es : List LogEvent) (m : IPMap), (connectTs es).Pairwise (· ≤ ·) →
        runMap [] es = .ok m →
        ∀ (ip : String) (cs : ClientStat), findClient m ip = some cs →
          logLookup cs "FIRST SEEN" ≤ logLookup cs "LAST SEEN") := by
  constructor
  · intro es m hrun ip cs hf
    refine runMap_connInv es [] m ?_ hrun ip cs hf
    intro ip0 cs0 hf0
    simp [findClient] at hf0
  · intro es m hpw hrun ip cs hf
    refine runMap_seenInv es [] m hpw ?_ ?_ hrun ip cs hf
    · intro ip0 cs0 hf0
      simp [findClient] at hf0
    · intro ip0 cs0 hf0
      simp [findClient] at hf0
